import Mathlib

/-!
Shallow embedding of the airtablehs inventory synchronizer core
(src/app/services/inventory.py, src/app/services/propagation.py,
src/app/services/mapping.py, src/app/config.py, src/app/models.py).

The database session is modelled as a pair of relational states:
`committed` (rows visible after the last COMMIT) and a current working
state that accumulates flushed-but-uncommitted changes.  A SQLAlchemy
`session.rollback()` discards the whole working state back to
`committed` (it is a transaction rollback, not a statement rollback).
Timestamps are abstract naturals; autoincrement ids are dropped (no
claim mentions them).
-/

namespace AirtableHS

/-- Row of `products` (models.py, class Product); timestamps omitted. -/
structure Product where
  sku : String
  name : String
  lead_time_days : Int
  reorder_point : Int
  backorders : Bool
deriving Repr, DecidableEq

/-- Row of `stock` (models.py, class Stock); timestamps omitted. -/
structure Stock where
  sku : String
  on_hand : Int
  reserved : Int
deriving Repr, DecidableEq

/-- Row of `inventory_events` (models.py, class InventoryEvent);
id and created_at omitted.  The unique constraint `uq_event_idempotency`
covers (site_id, order_id, line_item_id, event_type). -/
structure InventoryEvent where
  site_id : String
  order_id : String
  line_item_id : String
  sku : String
  delta : Int
  event_type : String
deriving Repr, DecidableEq

/-- Row of `site_sku_map` (models.py, class SiteSkuMap); primary key
(site_id, sku); `variation_id` is a nullable int64. -/
structure SiteSkuMap where
  site_id : String
  sku : String
  product_id : Int
  variation_id : Option Int
  refreshed_at : Nat
deriving Repr, DecidableEq

/-- The relational state of the tables the inventory/mapping claims touch. -/
structure DB where
  products : List Product
  stocks : List Stock
  events : List InventoryEvent
  maps : List SiteSkuMap
deriving Repr, DecidableEq

/-- `session.get(Product, sku)` : the row with this primary key. -/
def lookupProduct (db : DB) (sku : String) : Option Product :=
  db.products.find? (fun p => p.sku == sku)

/-- `session.get(Stock, sku)`. -/
def lookupStock (db : DB) (sku : String) : Option Stock :=
  db.stocks.find? (fun s => s.sku == sku)

/-- `session.get(SiteSkuMap, (site_id, sku))`. -/
def lookupMap (db : DB) (site_id sku : String) : Option SiteSkuMap :=
  db.maps.find? (fun m => m.site_id == site_id && m.sku == sku)

/-- `get_stock` (inventory.py lines 118-121): 0 if no row exists. -/
def get_stock (db : DB) (sku : String) : Int :=
  match lookupStock db sku with
  | some row => row.on_hand
  | none => 0

/-- Match against the `uq_event_idempotency` idempotency key. -/
def matchesKey (site_id order_id line_item_id event_type : String)
    (e : InventoryEvent) : Bool :=
  e.site_id == site_id && e.order_id == order_id &&
  e.line_item_id == line_item_id && e.event_type == event_type

/-- True iff the state already holds an event row with this key, i.e.
the INSERT of such a row would violate the unique constraint. -/
def eventKeyExists (db : DB) (site_id order_id line_item_id event_type : String) : Bool :=
  db.events.any (matchesKey site_id order_id line_item_id event_type)

/-- Number of event rows carrying a given idempotency key. -/
def countEvents (db : DB) (site_id order_id line_item_id event_type : String) : Nat :=
  db.events.countP (matchesKey site_id order_id line_item_id event_type)

/-- Assign `stock_row.on_hand = v` for the row keyed by `sku`
(inventory.py line 107). -/
def setOnHand (db : DB) (sku : String) (v : Int) : DB :=
  { db with stocks := db.stocks.map (fun s => if s.sku == sku then { s with on_hand := v } else s) }

/-- Second half of `_ensure_product_and_stock` (inventory.py lines
27-32), also the tail of `_upsert_product` (mapping.py lines 36-41):
insert a zero Stock row if absent.  `concS` injects the unique
violation a concurrent duplicate insert would cause at the flush; the
handler calls `session.rollback()`, resetting the session to
`committed`. -/
def stockStep (committed : DB) (sku : String) (concS : Bool) (db : DB) : DB :=
  if (lookupStock db sku).isNone then
    if concS then committed
    else { db with stocks := db.stocks ++ [⟨sku, 0, 0⟩] }
  else db

/-- `_ensure_product_and_stock` (inventory.py lines 18-32).  `concP`
injects a concurrent duplicate Product insert: the flush raises
`IntegrityError`, the handler rolls the session back to `committed`
and returns at once (line 26), skipping the stock step. -/
def _ensure_product_and_stock (committed cur : DB) (sku : String) (concP concS : Bool) : DB :=
  if (lookupProduct cur sku).isNone then
    if concP then committed
    else stockStep committed sku concS { cur with products := cur.products ++ [⟨sku, sku, 0, 0, false⟩] }
  else stockStep committed sku concS cur

/-- Sequential run of `_ensure_product_and_stock` (no concurrent
duplicate inserts, so neither flush can fail). -/
def ensureSeq (cur : DB) (sku : String) : DB :=
  _ensure_product_and_stock cur cur sku false false

/-- `product.backorders if product else False` (inventory.py lines 95-96). -/
def getBackorders (db : DB) (sku : String) : Bool :=
  match lookupProduct db sku with
  | some p => p.backorders
  | none => false

/-- The select of the stock row with the defensive re-create of
inventory.py lines 78-92: after it, a stock row for `sku` exists. -/
def refetchStockRow (db : DB) (sku : String) : DB :=
  if (lookupStock db sku).isNone
  then { db with stocks := db.stocks ++ [⟨sku, 0, 0⟩] } else db

/-- `apply_delta` (inventory.py lines 35-115) on a session holding
`committed` rows and working state `cur`, in a sequential run.  Returns
((was_new, new_on_hand), new working state).  On a duplicate key the
flush raises `IntegrityError`; the handler calls `session.rollback()`
(a full transaction rollback to `committed`), re-reads the stock row in
a fresh transaction and returns `(False, current)` (lines 65-74). -/
def apply_delta (committed cur : DB) (site_id order_id line_item_id sku : String)
    (delta : Int) (event_type : String) : (Bool × Int) × DB :=
  let cur1 := _ensure_product_and_stock committed cur sku false false
  if eventKeyExists cur1 site_id order_id line_item_id event_type then
    ((false, get_stock committed sku), committed)
  else
    let cur2 := { cur1 with events := cur1.events ++ [⟨site_id, order_id, line_item_id, sku, delta, event_type⟩] }
    let cur3 := refetchStockRow cur2 sku
    let backorders_allowed := getBackorders cur3 sku
    let new0 := get_stock cur3 sku + delta
    let new_on_hand := if new0 < 0 && !backorders_allowed then 0 else new0
    ((true, new_on_hand), setOnHand cur3 sku new_on_hand)

/-- One webhook line item (schemas.py: line_item_id, sku, qty). -/
structure LineItem where
  line_item_id : String
  sku : String
  qty : Int
deriving Repr, DecidableEq

/-- `bulk_apply_deltas` (inventory.py lines 124-151): sign is -1 for
order_paid, +1 otherwise; items are applied in sequence on the same
session (one surrounding request transaction). -/
def bulk_apply_deltas (committed cur : DB) (site_id order_id : String)
    (line_items : List LineItem) (event_type : String) :
    List (String × Bool × Int) × DB :=
  let sign : Int := if event_type == "order_paid" then -1 else 1
  line_items.foldl
    (fun acc item =>
      let r := apply_delta committed acc.2 site_id order_id item.line_item_id item.sku
                 (sign * item.qty) event_type
      (acc.1 ++ [(item.sku, r.1.1, r.1.2)], r.2))
    ([], cur)

/-- `apply_delta` run in its own transaction (as the webhook path does
via `get_db`): start from committed state `db`, commit the working
state at the end. -/
def applyDeltaTx (db : DB) (site_id order_id line_item_id sku : String)
    (delta : Int) (event_type : String) : (Bool × Int) × DB :=
  apply_delta db db site_id order_id line_item_id sku delta event_type

/-- State transform of one whole-transaction application. -/
def applyState (site_id order_id line_item_id sku : String) (delta : Int)
    (event_type : String) (db : DB) : DB :=
  (applyDeltaTx db site_id order_id line_item_id sku delta event_type).2

/-- `bulk_apply_deltas` run in its own request transaction. -/
def bulkTx (db : DB) (site_id order_id : String) (line_items : List LineItem)
    (event_type : String) : List (String × Bool × Int) × DB :=
  bulk_apply_deltas db db site_id order_id line_items event_type

/- ── Propagation worker (src/app/services/propagation.py) ── -/

/-- Row of `propagation_failures` (models.py, class PropagationFailure);
id omitted; payload is the `{sku, stock_quantity}` snapshot; times are
abstract naturals. -/
structure PropagationFailure where
  site_id : String
  sku : String
  payload : String × Int
  error : String
  attempts : Nat
  created_at : Nat
  last_tried : Nat
deriving Repr, DecidableEq

/-- Match a failure row against the (site_id, sku) dead-letter key. -/
def matchesFailureKey (site_id sku : String) (r : PropagationFailure) : Bool :=
  r.site_id == site_id && r.sku == sku

/-- Number of failure rows for one (site_id, sku) pair. -/
def failureKeyCount (rows : List PropagationFailure) (site_id sku : String) : Nat :=
  rows.countP (matchesFailureKey site_id sku)

/-- `_record_failure` (propagation.py lines 77-108): select the
existing row for (site_id, sku); update `error`, `attempts`,
`last_tried` in place if found, else insert a fresh row with
`created_at = last_tried = now`. -/
def _record_failure (rows : List PropagationFailure) (site_id sku : String)
    (payload : String × Int) (error : String) (attempts : Nat) (now : Nat) :
    List PropagationFailure :=
  if rows.any (matchesFailureKey site_id sku) then
    rows.map (fun r => if matchesFailureKey site_id sku r
      then { r with error := error, attempts := attempts, last_tried := now } else r)
  else
    rows ++ [⟨site_id, sku, payload, error, attempts, now, now⟩]

/-- Outcome of one `_propagate_one` attempt as seen by the retry loop
in `_handle_job` (propagation.py lines 121-140): success, a
non-success API response, or a raised exception. -/
inductive AttemptOutcome where
  | ok : AttemptOutcome
  | apiFail : AttemptOutcome
  | exn : String → AttemptOutcome
deriving Repr, DecidableEq

/-- The `last_error` string an unsuccessful attempt leaves behind
(propagation.py lines 130 and 132). -/
def outcomeError : AttemptOutcome → String
  | .ok => ""
  | .apiFail => "WC API returned non-success"
  | .exn msg => msg

/-- Mutable state of the per-site retry loop in `_handle_job`:
the `success` and `last_error` variables, the sleeps performed so far,
and the index of the last attempt executed. -/
structure RetryState where
  success : Bool
  lastError : String
  sleeps : List ℚ
  attemptsMade : Nat
deriving Repr, DecidableEq

/-- The `for attempt in range(1, max_retries + 1)` loop of
`_handle_job` (propagation.py lines 121-140), with `fuel` iterations
left, starting at attempt number `attempt`.  On success the loop
breaks at once; otherwise `last_error` is set and, when more attempts
remain (`attempt < max_retries`), the worker sleeps
`base * 2 ** (attempt - 1)` seconds. -/
def retryLoop (out : Nat → AttemptOutcome) (max_retries : Nat) (base : ℚ) :
    Nat → Nat → RetryState → RetryState
  | 0, _, st => st
  | fuel + 1, attempt, st =>
    match out attempt with
    | .ok => { st with success := true, attemptsMade := attempt }
    | o =>
      let st1 := { st with lastError := outcomeError o, attemptsMade := attempt }
      let st2 := if attempt < max_retries
                 then { st1 with sleeps := st1.sleeps ++ [base * 2 ^ (attempt - 1)] }
                 else st1
      retryLoop out max_retries base fuel (attempt + 1) st2

/-- Full per-site retry loop: attempts numbered 1..max_retries. -/
def runSiteAttempts (out : Nat → AttemptOutcome) (max_retries : Nat) (base : ℚ) : RetryState :=
  retryLoop out max_retries base max_retries 1 ⟨false, "", [], 0⟩

/-- What `_record_failure` is called with after the loop. -/
structure FailureReport where
  attempts : Nat
  error : String
deriving Repr, DecidableEq

/-- Per-site body of `_handle_job` (propagation.py lines 116-153): run
the retry loop; if it did not succeed, record a failure with
`attempts = max_retries` and the last error. -/
def handleJobSite (out : Nat → AttemptOutcome) (max_retries : Nat) (base : ℚ) :
    RetryState × Option FailureReport :=
  let st := runSiteAttempts out max_retries base
  (st, if st.success then none else some ⟨max_retries, st.lastError⟩)

/-- Which WooCommerce write `_propagate_one` issues. -/
inductive StockWrite where
  | skipWrite : StockWrite
  | productWrite : Int → Int → StockWrite
  | variationWrite : Int → Int → Int → StockWrite
deriving Repr, DecidableEq

/-- Python truthiness of the nullable `mapping.variation_id`:
`None` and `0` are falsy, any other int is truthy. -/
def pyTruthy : Option Int → Bool
  | none => false
  | some n => !(n == 0)

/-- `_propagate_one` (propagation.py lines 52-74), write selection: a
missing mapping is skipped (treated as satisfied); `if
mapping.variation_id:` selects the variation write by truthiness, else
the product write. -/
def _propagate_one (mapping : Option SiteSkuMap) (stock_quantity : Int) : StockWrite :=
  match mapping with
  | none => .skipWrite
  | some m =>
    if pyTruthy m.variation_id then
      .variationWrite m.product_id (m.variation_id.getD 0) stock_quantity
    else
      .productWrite m.product_id stock_quantity

/- ── Configuration (src/app/config.py) ── -/

/-- `SiteConfig` (config.py lines 15-22): note there is no is_active
field — env-configured sites carry only id, url and credentials. -/
structure SiteConfig where
  site_id : String
  base_url : String
  wc_key : String
  wc_secret : String
deriving Repr, DecidableEq

/-- The part of `Settings` the worker reads (config.py line 31):
`sites` parsed once from the SITES env JSON in `model_post_init`. -/
structure Settings where
  sites : List SiteConfig
deriving Repr, DecidableEq

/-- `get_settings` (config.py lines 91-93): `@lru_cache(maxsize=1)` —
the first call parses the environment, every later call returns the
cached Settings regardless of the current environment. -/
def get_settings (env_sites : List SiteConfig) (cache : Option Settings) :
    Settings × Option Settings :=
  match cache with
  | some s => (s, some s)
  | none => (⟨env_sites⟩, some ⟨env_sites⟩)

/-- The module-level `settings = get_settings()` binding executed when
propagation.py is imported (line 25), i.e. at process startup. -/
def moduleSettings (startup_env : List SiteConfig) : Settings :=
  (get_settings startup_env none).1

/-- The site list `_handle_job` iterates (propagation.py line 112):
`sites = settings.sites` reads the module-level cached Settings, so the
startup environment decides the list; the environment current at
job-handling time (`current_env`) is never consulted. -/
def handleJobSiteList (startup_env _current_env : List SiteConfig) : List SiteConfig :=
  (moduleSettings startup_env).sites

/- ── Mapping refresher (src/app/services/mapping.py) ── -/

/-- One variation record returned by `fetch_variations`. -/
structure RemoteVariation where
  id : Int
  sku : String
deriving Repr, DecidableEq

/-- One product record returned by `fetch_all_products`. -/
structure RemoteProduct where
  id : Int
  ptype : String
  sku : String
  name : String
  variations : List RemoteVariation
deriving Repr, DecidableEq

/-- Python `str.isspace` characters relevant to `str.strip()`. -/
def isPySpace (c : Char) : Bool :=
  c == ' ' || c == '\t' || c == '\n' || c == '\r' ||
  c == Char.ofNat 11 || c == Char.ofNat 12

/-- Python `str.strip()`: drop leading and trailing whitespace. -/
def pyStrip (s : String) : String :=
  ⟨((s.toList.dropWhile isPySpace).reverse.dropWhile isPySpace).reverse⟩

/-- Python `a or b` on strings: `b` when `a` is empty. -/
def pyOr (a b : String) : String :=
  if a == "" then b else a

/-- `_upsert_product` (mapping.py lines 24-41): update the name of an
existing Product or insert a new one, then ensure a zero Stock row
(sequential run — the IntegrityError branches need a concurrent
duplicate insert). -/
def _upsert_product (db : DB) (sku name : String) : DB :=
  match lookupProduct db sku with
  | some _ =>
    stockStep db sku false
      { db with products := db.products.map (fun p => if p.sku == sku then { p with name := name } else p) }
  | none =>
    stockStep db sku false
      { db with products := db.products ++ [⟨sku, name, 0, 0, false⟩] }

/-- `_upsert_mapping` (mapping.py lines 44-71): update the existing
(site_id, sku) row's product_id/variation_id/refreshed_at, or insert a
fresh row. -/
def _upsert_mapping (db : DB) (site_id sku : String) (product_id : Int)
    (variation_id : Option Int) (now : Nat) : DB :=
  match lookupMap db site_id sku with
  | some _ =>
    { db with maps := db.maps.map (fun m =>
        if m.site_id == site_id && m.sku == sku
        then { m with product_id := product_id, variation_id := variation_id, refreshed_at := now }
        else m) }
  | none =>
    { db with maps := db.maps ++ [⟨site_id, sku, product_id, variation_id, now⟩] }

/-- Inner loop of `refresh_site_mappings` over the variations of a
variable product (mapping.py lines 105-115): skip blank (stripped)
SKUs, else upsert product (name falling back to the variation SKU) and
mapping with this variation id. -/
def processVariation (site_id : String) (product_id : Int) (name : String) (now : Nat)
    (acc : DB × Nat) (v : RemoteVariation) : DB × Nat :=
  let var_sku := pyStrip v.sku
  if var_sku == "" then acc
  else
    (_upsert_mapping (_upsert_product acc.1 var_sku (pyOr name var_sku))
       site_id var_sku product_id (some v.id) now,
     acc.2 + 1)

/-- Body of `refresh_site_mappings` for one product record
(mapping.py lines 91-124): the SKU is read with
`product.get("sku", "").strip()`; variable products iterate their
variations, others are skipped when the stripped SKU is blank, else
product and mapping are upserted (variation_id absent). -/
def processProduct (site_id : String) (now : Nat) (acc : DB × Nat)
    (p : RemoteProduct) : DB × Nat :=
  let sku := pyStrip p.sku
  if p.ptype == "variable" then
    p.variations.foldl (processVariation site_id p.id p.name now) acc
  else if sku == "" then acc
  else
    (_upsert_mapping (_upsert_product acc.1 sku (pyOr p.name sku))
       site_id sku p.id none now,
     acc.2 + 1)

/-- `refresh_site_mappings` (mapping.py lines 74-137) over an
already-fetched product list: walk every record, upserting; returns the
final state and the `inserted` counter. -/
def refresh_site_mappings (db : DB) (site_id : String)
    (products : List RemoteProduct) (now : Nat) : DB × Nat :=
  products.foldl (processProduct site_id now) (db, 0)

/- ── Concrete states used by closed theorems ── -/

/-- Empty ledger. -/
def emptyDB : DB := ⟨[], [], [], []⟩

/-- Ledger holding one product "A" (backorders off), 10 on hand, and
one committed event with key (s1, O1, L2, order_paid). -/
def dbDupBulk : DB :=
  { products := [⟨"A", "A", 0, 0, false⟩]
  , stocks := [⟨"A", 10, 0⟩]
  , events := [⟨"s1", "O1", "L2", "A", -3, "order_paid"⟩]
  , maps := [] }

/-- Ledger holding product "A" (backorders off) with 0 on hand. -/
def dbZeroStock : DB :=
  { products := [⟨"A", "A", 0, 0, false⟩]
  , stocks := [⟨"A", 0, 0⟩]
  , events := []
  , maps := [] }

/-- A concrete env-configured site. -/
def siteA : SiteConfig := ⟨"site1", "https://shop1.example.com", "ck", "cs"⟩

/-- A remote catalog record whose SKU carries edge whitespace. -/
def remoteSpacedSku : RemoteProduct := ⟨1, "simple", " A ", "N", []⟩

/- ═══ Helper lemmas ═══ -/

lemma stockStep_seq_events (c : DB) (sku : String) (db : DB) :
    (stockStep c sku false db).events = db.events := by
  unfold stockStep; split <;> simp

lemma stockStep_seq_products (c : DB) (sku : String) (db : DB) :
    (stockStep c sku false db).products = db.products := by
  unfold stockStep; split <;> simp

lemma stockStep_seq_maps (c : DB) (sku : String) (db : DB) :
    (stockStep c sku false db).maps = db.maps := by
  unfold stockStep; split <;> simp

lemma ensure_seq_events (c cur : DB) (sku : String) :
    (_ensure_product_and_stock c cur sku false false).events = cur.events := by
  unfold _ensure_product_and_stock
  split <;> simp [stockStep_seq_events]

lemma get_stock_stockStep_seq (c : DB) (sku : String) (db : DB) :
    get_stock (stockStep c sku false db) sku = get_stock db sku := by
  unfold stockStep get_stock lookupStock
  cases h : db.stocks.find? (fun s => s.sku == sku) with
  | none => simp [h, List.find?_append]
  | some r => simp [h]

lemma get_stock_ensure_seq (c cur : DB) (sku : String) :
    get_stock (_ensure_product_and_stock c cur sku false false) sku = get_stock cur sku := by
  unfold _ensure_product_and_stock
  split
  · simp only [Bool.false_eq_true, if_false]
    rw [get_stock_stockStep_seq]
    rfl
  · rw [get_stock_stockStep_seq]

lemma getBackorders_stockStep_seq (c : DB) (sku : String) (db : DB) (x : String) :
    getBackorders (stockStep c sku false db) x = getBackorders db x := by
  unfold getBackorders lookupProduct
  rw [stockStep_seq_products]

lemma getBackorders_ensure_seq (c cur : DB) (sku : String) :
    getBackorders (_ensure_product_and_stock c cur sku false false) sku
      = getBackorders cur sku := by
  unfold _ensure_product_and_stock
  split
  · next h =>
    simp only [Bool.false_eq_true, if_false]
    rw [getBackorders_stockStep_seq]
    unfold getBackorders lookupProduct at *
    cases h2 : cur.products.find? (fun p => p.sku == sku) with
    | none => simp [List.find?_append, h2]
    | some r => simp [h2] at h
  · rw [getBackorders_stockStep_seq]

lemma eventKeyExists_ensure_seq (c cur : DB) (sku s o l t : String) :
    eventKeyExists (_ensure_product_and_stock c cur sku false false) s o l t
      = eventKeyExists cur s o l t := by
  unfold eventKeyExists
  rw [ensure_seq_events]

lemma lookupStock_refetch_isSome (db : DB) (sku : String) :
    (lookupStock (refetchStockRow db sku) sku).isSome := by
  unfold refetchStockRow
  split
  · next h =>
    unfold lookupStock at *
    simp only [Option.isNone_iff_eq_none] at h
    simp [List.find?_append, h]
  · next h =>
    simpa [Option.isNone_iff_eq_none, ← Option.ne_none_iff_isSome] using h

lemma get_stock_refetch (db : DB) (sku : String) :
    get_stock (refetchStockRow db sku) sku = get_stock db sku := by
  unfold refetchStockRow get_stock lookupStock
  cases h : db.stocks.find? (fun s => s.sku == sku) with
  | none => simp [h, List.find?_append]
  | some r => simp [h]

lemma refetch_products (db : DB) (sku : String) :
    (refetchStockRow db sku).products = db.products := by
  unfold refetchStockRow; split <;> rfl

lemma refetch_events (db : DB) (sku : String) :
    (refetchStockRow db sku).events = db.events := by
  unfold refetchStockRow; split <;> rfl

lemma getBackorders_refetch (db : DB) (sku x : String) :
    getBackorders (refetchStockRow db sku) x = getBackorders db x := by
  unfold getBackorders lookupProduct
  rw [refetch_products]

lemma setOnHand_events (db : DB) (sku : String) (v : Int) :
    (setOnHand db sku v).events = db.events := rfl

lemma setOnHand_products (db : DB) (sku : String) (v : Int) :
    (setOnHand db sku v).products = db.products := rfl

lemma get_stock_setOnHand (db : DB) (sku : String) (v : Int)
    (h : (lookupStock db sku).isSome) :
    get_stock (setOnHand db sku v) sku = v := by
  unfold get_stock setOnHand lookupStock at *
  rw [List.find?_map]
  have hpred : (fun s : Stock => s.sku == sku) ∘
      (fun s : Stock => if s.sku == sku then { s with on_hand := v } else s)
      = fun s : Stock => s.sku == sku := by
    funext s
    by_cases hs : s.sku = sku <;> simp [hs]
  rw [hpred]
  cases h2 : db.stocks.find? (fun s : Stock => s.sku == sku) with
  | none => rw [h2] at h; simp at h
  | some r =>
    have hr : r.sku = sku := by
      have := List.find?_some h2
      simpa using this
    simp [h2, hr]

/-- On a duplicate idempotency key, `apply_delta` rolls the whole
session back to `committed` and reports the committed stock. -/
lemma apply_delta_dup (c cur : DB) (s o l sku : String) (δ : Int) (t : String)
    (h : eventKeyExists cur s o l t = true) :
    apply_delta c cur s o l sku δ t = ((false, get_stock c sku), c) := by
  have he : eventKeyExists (_ensure_product_and_stock c cur sku false false) s o l t = true := by
    rw [eventKeyExists_ensure_seq]; exact h
  unfold apply_delta
  simp [he]

lemma applyState_dup (db : DB) (s o l sku : String) (δ : Int) (t : String)
    (h : eventKeyExists db s o l t = true) :
    applyState s o l sku δ t db = db := by
  unfold applyState applyDeltaTx
  rw [apply_delta_dup db db s o l sku δ t h]

lemma get_stock_events_update (db : DB) (es : List InventoryEvent) (sku : String) :
    get_stock { db with events := es } sku = get_stock db sku := rfl

lemma getBackorders_events_update (db : DB) (es : List InventoryEvent) (sku : String) :
    getBackorders { db with events := es } sku = getBackorders db sku := rfl

lemma applyState_events_new (db : DB) (s o l sku : String) (δ : Int) (t : String)
    (h : eventKeyExists db s o l t = false) :
    (applyState s o l sku δ t db).events = db.events ++ [⟨s, o, l, sku, δ, t⟩] := by
  have he : eventKeyExists (_ensure_product_and_stock db db sku false false) s o l t = false := by
    rw [eventKeyExists_ensure_seq]; exact h
  unfold applyState applyDeltaTx apply_delta
  simp only [he, Bool.false_eq_true, if_false, setOnHand_events, refetch_events]
  rw [ensure_seq_events]

lemma applyState_stock_new (db : DB) (s o l sku : String) (δ : Int) (t : String)
    (h : eventKeyExists db s o l t = false) :
    get_stock (applyState s o l sku δ t db) sku =
      if get_stock db sku + δ < 0 && !(getBackorders db sku) then 0
      else get_stock db sku + δ := by
  have he : eventKeyExists (_ensure_product_and_stock db db sku false false) s o l t = false := by
    rw [eventKeyExists_ensure_seq]; exact h
  unfold applyState applyDeltaTx apply_delta
  simp only [he, Bool.false_eq_true, if_false]
  rw [get_stock_setOnHand _ _ _ (lookupStock_refetch_isSome _ _),
      get_stock_refetch, getBackorders_refetch, get_stock_events_update,
      getBackorders_events_update, get_stock_ensure_seq, getBackorders_ensure_seq]

lemma applyDeltaTx_fst_new (db : DB) (s o l sku : String) (δ : Int) (t : String)
    (h : eventKeyExists db s o l t = false) :
    (applyDeltaTx db s o l sku δ t).1 =
      (true, if get_stock db sku + δ < 0 && !(getBackorders db sku) then 0
             else get_stock db sku + δ) := by
  have he : eventKeyExists (_ensure_product_and_stock db db sku false false) s o l t = false := by
    rw [eventKeyExists_ensure_seq]; exact h
  unfold applyDeltaTx apply_delta
  simp only [he, Bool.false_eq_true, if_false]
  rw [get_stock_refetch, getBackorders_refetch, get_stock_events_update,
      getBackorders_events_update, get_stock_ensure_seq, getBackorders_ensure_seq]

lemma getBackorders_applyState (db : DB) (s o l sku : String) (δ : Int) (t : String) :
    getBackorders (applyState s o l sku δ t db) sku = getBackorders db sku := by
  by_cases h : eventKeyExists db s o l t
  · rw [applyState_dup db s o l sku δ t h]
  · have h2 : eventKeyExists db s o l t = false := eq_false_of_ne_true h
    have he : eventKeyExists (_ensure_product_and_stock db db sku false false) s o l t = false := by
      rw [eventKeyExists_ensure_seq]; exact h2
    unfold applyState applyDeltaTx apply_delta
    simp only [he, Bool.false_eq_true, if_false]
    have hsp : ∀ d : DB, ∀ x v, getBackorders (setOnHand d x v) sku = getBackorders d sku := by
      intro d x v
      unfold getBackorders lookupProduct
      rw [setOnHand_products]
    rw [hsp, getBackorders_refetch, getBackorders_events_update, getBackorders_ensure_seq]

lemma matchesKey_self (s o l sku : String) (δ : Int) (t : String) :
    matchesKey s o l t ⟨s, o, l, sku, δ, t⟩ = true := by
  simp [matchesKey]

lemma eventKeyExists_after_new (db : DB) (s o l sku : String) (δ : Int) (t : String)
    (h : eventKeyExists db s o l t = false) :
    eventKeyExists (applyState s o l sku δ t db) s o l t = true := by
  unfold eventKeyExists
  rw [applyState_events_new db s o l sku δ t h]
  simp [matchesKey]

/-- One whole-transaction application is idempotent on the state. -/
lemma applyState_idem (db : DB) (s o l sku : String) (δ : Int) (t : String) :
    applyState s o l sku δ t (applyState s o l sku δ t db)
      = applyState s o l sku δ t db := by
  by_cases h : eventKeyExists db s o l t
  · rw [applyState_dup db s o l sku δ t h, applyState_dup db s o l sku δ t h]
  · exact applyState_dup _ s o l sku δ t
      (eventKeyExists_after_new db s o l sku δ t (eq_false_of_ne_true h))

/- ═══ Claim theorems ═══ -/

/-- C1.  In a bulk call whose second line item repeats an already
committed idempotency key, the `session.rollback()` in `apply_delta`
discards the whole transaction: the first (fresh) line item reported
`(true, 5)`, yet the final committed state equals the pre-call state —
its event row and the stock decrement 10 → 5 are lost.  This
contradicts the claim that only the failed insertion is rolled back
and all earlier work of the surrounding transaction is retained
(the code's own comment says "rollback this flush only"). -/
theorem duplicate_in_bulk_discards_prior_work :
    (bulkTx dbDupBulk "s1" "O1" [⟨"L1", "A", 5⟩, ⟨"L2", "A", 3⟩] "order_paid").1
        = [("A", true, 5), ("A", false, 10)]
    ∧ (bulkTx dbDupBulk "s1" "O1" [⟨"L1", "A", 5⟩, ⟨"L2", "A", 3⟩] "order_paid").2
        = dbDupBulk := by
  constructor <;> rfl

/-- C2.  Applying the same event N ≥ 1 times, each in its own
transaction, is observationally equivalent to applying it once: the
state after N applications equals the state after the first, exactly
one event row carries the key, and on_hand equals its value after the
first application. -/
theorem apply_delta_idempotent (db : DB) (s o l sku : String) (δ : Int) (t : String)
    (N : Nat) (hN : 1 ≤ N) (h0 : countEvents db s o l t = 0) :
    (applyState s o l sku δ t)^[N] db = applyState s o l sku δ t db
    ∧ countEvents ((applyState s o l sku δ t)^[N] db) s o l t = 1
    ∧ get_stock ((applyState s o l sku δ t)^[N] db) sku
        = get_stock (applyState s o l sku δ t db) sku := by
  obtain ⟨m, rfl⟩ : ∃ m, N = m + 1 := ⟨N - 1, (Nat.succ_pred_eq_of_pos hN).symm⟩
  have hiter : (applyState s o l sku δ t)^[m + 1] db = applyState s o l sku δ t db := by
    rw [Function.iterate_succ_apply]
    exact Function.iterate_fixed (applyState_idem db s o l sku δ t) m
  refine ⟨hiter, ?_, by rw [hiter]⟩
  rw [hiter]
  have hfresh : eventKeyExists db s o l t = false := by
    unfold countEvents at h0
    unfold eventKeyExists
    rw [List.countP_eq_zero] at h0
    rw [List.any_eq_false]
    intro e he
    simpa using h0 e he
  unfold countEvents
  rw [applyState_events_new db s o l sku δ t hfresh, List.countP_append]
  have h1 : List.countP (matchesKey s o l t) [⟨s, o, l, sku, δ, t⟩] = 1 := by
    simp [List.countP, List.countP.go, matchesKey_self]
  unfold countEvents at h0
  rw [h0, h1]

/-- Witness for C2 at a concrete ledger, key and N = 3. -/
theorem apply_delta_idempotent_witness :
    ((1 : Nat) ≤ 3 ∧ countEvents dbZeroStock "s1" "O1" "L1" "order_paid" = 0)
    ∧ (applyState "s1" "O1" "L1" "A" (-2) "order_paid")^[3] dbZeroStock
        = applyState "s1" "O1" "L1" "A" (-2) "order_paid" dbZeroStock :=
  ⟨⟨by decide, by decide⟩,
   (apply_delta_idempotent dbZeroStock "s1" "O1" "L1" "A" (-2) "order_paid" 3
     (by decide) (by decide)).1⟩

/- ═══ Further helper lemmas (single-item bulk calls, ensure) ═══ -/

lemma bulkTx_single_paid (db : DB) (s o l sku : String) (qty : Int) :
    (bulkTx db s o [⟨l, sku, qty⟩] "order_paid").2
      = applyState s o l sku (-qty) "order_paid" db := by
  unfold bulkTx bulk_apply_deltas applyState applyDeltaTx
  simp [neg_one_mul]

lemma bulkTx_single_nonpaid (db : DB) (s o l sku : String) (qty : Int)
    (t : String) (ht : (t == "order_paid") = false) :
    (bulkTx db s o [⟨l, sku, qty⟩] t).2
      = applyState s o l sku qty t db := by
  unfold bulkTx bulk_apply_deltas applyState applyDeltaTx
  simp [ht]

lemma eventKeyExists_other_type (db : DB) (s o l sku : String) (δ : Int)
    (t t2 : String) (h1 : eventKeyExists db s o l t = false)
    (h2 : eventKeyExists db s o l t2 = false) (hne : (t == t2) = false) :
    eventKeyExists (applyState s o l sku δ t db) s o l t2 = false := by
  unfold eventKeyExists
  rw [applyState_events_new db s o l sku δ t h1, List.any_append]
  unfold eventKeyExists at h2
  rw [h2]
  simp [matchesKey, hne]

lemma lookupStock_products_update (db : DB) (ps : List Product) (sku : String) :
    lookupStock { db with products := ps } sku = lookupStock db sku := rfl

lemma lookupStock_stockStep_isSome (c db : DB) (sku : String) :
    (lookupStock (stockStep c sku false db) sku).isSome = true := by
  unfold stockStep
  split
  · next h =>
    unfold lookupStock at *
    simp only [Option.isNone_iff_eq_none] at h
    simp [List.find?_append, h]
  · next h =>
    simpa [Option.isNone_iff_eq_none, ← Option.ne_none_iff_isSome] using h

lemma lookupStock_stockStep_of_none (c db : DB) (sku : String)
    (h : lookupStock db sku = none) :
    lookupStock (stockStep c sku false db) sku = some ⟨sku, 0, 0⟩ := by
  unfold stockStep
  rw [h]
  unfold lookupStock at *
  simp [List.find?_append, h]

lemma lookupProduct_stockStep (c db : DB) (sku x : String) :
    lookupProduct (stockStep c sku false db) x = lookupProduct db x := by
  unfold lookupProduct
  rw [stockStep_seq_products]

/- ═══ More claim theorems ═══ -/

/-- C3.  For a SKU whose backorders flag is off and whose on_hand is
nonnegative, `apply_delta` never stores a negative on_hand; when the
update would go negative it clamps the stored value to 0 and the call
still succeeds, returning (true, 0). -/
theorem apply_delta_floor (db : DB) (s o l sku : String) (δ : Int) (t : String)
    (hb : getBackorders db sku = false) (h0 : 0 ≤ get_stock db sku) :
    0 ≤ get_stock (applyState s o l sku δ t db) sku
    ∧ (eventKeyExists db s o l t = false → get_stock db sku + δ < 0 →
        (applyDeltaTx db s o l sku δ t).1 = (true, 0)
        ∧ get_stock (applyState s o l sku δ t db) sku = 0) := by
  constructor
  · by_cases h : eventKeyExists db s o l t
    · rw [applyState_dup db s o l sku δ t h]; exact h0
    · rw [applyState_stock_new db s o l sku δ t (eq_false_of_ne_true h), hb]
      split
      · exact le_refl 0
      · next hcond =>
        simp only [Bool.not_false, Bool.and_true, decide_eq_true_eq] at hcond
        exact le_of_not_lt hcond
  · intro hfresh hneg
    constructor
    · rw [applyDeltaTx_fst_new db s o l sku δ t hfresh, hb]
      simp [hneg]
    · rw [applyState_stock_new db s o l sku δ t hfresh, hb]
      simp [hneg]

/-- Witness for C3 at a concrete ledger with on_hand 0 and delta -1. -/
theorem apply_delta_floor_witness :
    (getBackorders dbZeroStock "A" = false ∧ 0 ≤ get_stock dbZeroStock "A")
    ∧ 0 ≤ get_stock (applyState "s1" "O2" "L1" "A" (-1) "order_paid" dbZeroStock) "A" :=
  ⟨⟨by decide, by decide⟩,
   (apply_delta_floor dbZeroStock "s1" "O2" "L1" "A" (-1) "order_paid"
     (by decide) (by decide)).1⟩

/-- C4 counterexample.  With backorders off, on_hand 0 and qty 1, the
order_paid application clamps to 0, and the subsequent refund raises
on_hand to 1: the net change over the pair is +1, not zero, refuting
the claim for "every starting on_hand and every backorders setting". -/
theorem inversion_fails_after_clamp :
    get_stock (bulkTx (bulkTx dbZeroStock "s1" "O1" [⟨"L1", "A", 1⟩] "order_paid").2
        "s1" "O1" [⟨"L1", "A", 1⟩] "refund").2 "A" = 1
    ∧ get_stock dbZeroStock "A" = 0 := by
  constructor <;> rfl

/-- C4 amended.  An order_paid applied once and then a refund or
cancel event applied once with the same qty and a distinct key leave
on_hand unchanged, provided the order_paid application does not clamp,
i.e. backorders is on or qty ≤ starting on_hand (with qty ≥ 0). -/
theorem order_refund_inversion (db : DB) (s o l sku : String) (qty : Int)
    (t2 : String) (ht2 : t2 = "refund" ∨ t2 = "cancel")
    (h1 : eventKeyExists db s o l "order_paid" = false)
    (h2 : eventKeyExists db s o l t2 = false)
    (h3 : getBackorders db sku = true ∨ (0 ≤ qty ∧ qty ≤ get_stock db sku)) :
    get_stock (bulkTx (bulkTx db s o [⟨l, sku, qty⟩] "order_paid").2
        s o [⟨l, sku, qty⟩] t2).2 sku = get_stock db sku := by
  have hne : (t2 == "order_paid") = false := by
    rcases ht2 with rfl | rfl <;> decide
  have hne2 : (("order_paid" : String) == t2) = false := by
    rcases ht2 with rfl | rfl <;> decide
  rw [bulkTx_single_paid, bulkTx_single_nonpaid _ s o l sku qty t2 hne]
  have hfresh2 : eventKeyExists (applyState s o l sku (-qty) "order_paid" db) s o l t2 = false :=
    eventKeyExists_other_type db s o l sku (-qty) "order_paid" t2 h1 h2 hne2
  have hb1 : getBackorders (applyState s o l sku (-qty) "order_paid" db) sku
      = getBackorders db sku := getBackorders_applyState db s o l sku (-qty) "order_paid"
  have hstep1 : get_stock (applyState s o l sku (-qty) "order_paid" db) sku
      = get_stock db sku - qty := by
    rw [applyState_stock_new db s o l sku (-qty) "order_paid" h1]
    rcases h3 with hbo | ⟨hq0, hqle⟩
    · rw [hbo]
      simp [sub_eq_add_neg]
    · have : ¬ (get_stock db sku + -qty < 0) := by omega
      simp [this, sub_eq_add_neg]
  rw [applyState_stock_new _ s o l sku qty t2 hfresh2, hstep1, hb1]
  have harith : get_stock db sku - qty + qty = get_stock db sku := by ring
  rcases h3 with hbo | ⟨hq0, hqle⟩
  · rw [hbo, harith]
    simp
  · rw [harith]
    have : ¬ (get_stock db sku < 0) := by omega
    simp [this]

/-- Witness for C4 amended: stock 10, qty 4, fresh keys, with the
cancel event as the inverting application. -/
theorem order_refund_inversion_witness :
    ((("cancel" : String) = "refund" ∨ ("cancel" : String) = "cancel")
     ∧ eventKeyExists dbDupBulk "s1" "O9" "L1" "order_paid" = false
     ∧ eventKeyExists dbDupBulk "s1" "O9" "L1" "cancel" = false
     ∧ (0 ≤ (4 : Int) ∧ (4 : Int) ≤ get_stock dbDupBulk "A"))
    ∧ get_stock (bulkTx (bulkTx dbDupBulk "s1" "O9" [⟨"L1", "A", 4⟩] "order_paid").2
        "s1" "O9" [⟨"L1", "A", 4⟩] "cancel").2 "A" = get_stock dbDupBulk "A" :=
  ⟨⟨Or.inr rfl, by decide, by decide, by decide, by decide⟩,
   order_refund_inversion dbDupBulk "s1" "O9" "L1" "A" 4 "cancel" (Or.inr rfl)
     (by decide) (by decide) (Or.inr ⟨by decide, by decide⟩)⟩

/-- C8 counterexample.  For an unknown SKU, when the Product insert
hits a unique violation (a concurrent duplicate insert won the race),
`_ensure_product_and_stock` rolls back and returns at once (line 26):
the Stock row is NOT ensured — after the call the session still has no
stock row for the SKU, refuting "still proceeds to ensure the Stock
row". -/
theorem ensure_product_conflict_skips_stock :
    lookupProduct emptyDB "A" = none
    ∧ lookupStock emptyDB "A" = none
    ∧ lookupStock (_ensure_product_and_stock emptyDB emptyDB "A" true false) "A" = none :=
  ⟨rfl, rfl, rfl⟩

/-- C8 amended.  `_ensure_product_and_stock` is a best-effort upsert:
in a sequential run it leaves both a Product row (name = sku, zero
counters, backorders off when newly created) and a Stock row (0, 0
when newly created); a unique violation on the Stock insert is caught
and swallowed (rollback); but a unique violation on the Product insert
rolls back and returns immediately WITHOUT ensuring the Stock row. -/
theorem ensure_best_effort (committed cur : DB) (sku : String) :
    (lookupProduct (ensureSeq cur sku) sku).isSome = true
    ∧ (lookupStock (ensureSeq cur sku) sku).isSome = true
    ∧ (lookupProduct cur sku = none →
        lookupProduct (ensureSeq cur sku) sku = some ⟨sku, sku, 0, 0, false⟩)
    ∧ (lookupStock cur sku = none →
        lookupStock (ensureSeq cur sku) sku = some ⟨sku, 0, 0⟩)
    ∧ (∀ concS, lookupProduct cur sku = none →
        _ensure_product_and_stock committed cur sku true concS = committed)
    ∧ (lookupProduct cur sku ≠ none → lookupStock cur sku = none →
        _ensure_product_and_stock committed cur sku false true = committed) := by
  refine ⟨?_, ?_, ?_, ?_, ?_, ?_⟩
  · unfold ensureSeq _ensure_product_and_stock
    split
    · next h =>
      simp only [Bool.false_eq_true, if_false]
      rw [lookupProduct_stockStep]
      unfold lookupProduct at *
      simp only [Option.isNone_iff_eq_none] at h
      simp [List.find?_append, h]
    · next h =>
      rw [lookupProduct_stockStep]
      simpa [Option.isNone_iff_eq_none, ← Option.ne_none_iff_isSome] using h
  · unfold ensureSeq _ensure_product_and_stock
    split
    · simp only [Bool.false_eq_true, if_false]
      exact lookupStock_stockStep_isSome _ _ _
    · exact lookupStock_stockStep_isSome _ _ _
  · intro h
    unfold ensureSeq _ensure_product_and_stock
    rw [h]
    simp only [Option.isNone_none, if_true, Bool.false_eq_true, if_false]
    rw [lookupProduct_stockStep]
    unfold lookupProduct at *
    simp [List.find?_append, h]
  · intro h
    unfold ensureSeq _ensure_product_and_stock
    split
    · simp only [Bool.false_eq_true, if_false]
      exact lookupStock_stockStep_of_none _ _ _ h
    · exact lookupStock_stockStep_of_none _ _ _ h
  · intro concS h
    unfold _ensure_product_and_stock
    rw [h]
    simp
  · intro hp hs
    unfold _ensure_product_and_stock
    split
    · next h =>
      simp only [Option.isNone_iff_eq_none] at h
      exact absurd h hp
    · unfold stockStep
      rw [hs]
      simp

/-- Witness for C8 amended, instantiated at a fresh SKU on an empty
session with a nonempty committed state. -/
theorem ensure_best_effort_witness :
    lookupProduct emptyDB "B" = none
    ∧ _ensure_product_and_stock dbZeroStock emptyDB "B" true false = dbZeroStock :=
  ⟨rfl, (ensure_best_effort dbZeroStock emptyDB "B").2.2.2.2.1 false rfl⟩

/-- C9 counterexample.  With one site configured at startup and an
empty current environment (all sites removed or deactivated at
runtime), `_handle_job` still iterates the startup site — the list is
the module-level cached snapshot, not a live view, and `SiteConfig`
has no is_active flag to filter on. -/
theorem worker_site_list_not_live :
    handleJobSiteList [siteA] [] = [siteA]
    ∧ ([siteA] : List SiteConfig) ≠ ([] : List SiteConfig) :=
  ⟨rfl, by decide⟩

/-- C9 amended.  The worker iterates the site list parsed once at
startup: `settings` is bound at module import from the lru-cached
`get_settings()`, so a later `get_settings()` call still returns the
startup snapshot and the environment current at job time is ignored. -/
theorem worker_site_list_is_startup_snapshot (startup current : List SiteConfig) :
    handleJobSiteList startup current = startup
    ∧ (get_settings current ((get_settings startup none).2)).1
        = (get_settings startup none).1 :=
  ⟨rfl, rfl⟩

/-- C10.  A SiteSkuMap row with variation_id = 0 takes the product
write, because `if mapping.variation_id:` tests Python truthiness and
int 0 is falsy; only a non-zero variation_id selects the variation
write. -/
theorem propagate_one_zero_variation_is_product_write (m : SiteSkuMap) (qty : Int)
    (h : m.variation_id = some 0) :
    _propagate_one (some m) qty = StockWrite.productWrite m.product_id qty := by
  unfold _propagate_one
  simp [pyTruthy, h]

/-- Witness for C10 at a concrete mapping row. -/
theorem propagate_one_zero_variation_is_product_write_witness :
    (SiteSkuMap.mk "s1" "A" 7 (some 0) 0).variation_id = some 0
    ∧ _propagate_one (some (SiteSkuMap.mk "s1" "A" 7 (some 0) 0)) 42
        = StockWrite.productWrite 7 42 :=
  ⟨rfl, propagate_one_zero_variation_is_product_write (SiteSkuMap.mk "s1" "A" 7 (some 0) 0) 42 rfl⟩

/-- C5.  The dead-letter upsert keeps at most one PropagationFailure
row per (site_id, sku): starting from a deduplicated table, a fresh
pair gets a single appended row with created_at = last_tried = now,
and an existing pair is updated in place (same length, position i
holds the old row with only error/attempts/last_tried rewritten on the
matching row), so the invariant is preserved. -/
theorem record_failure_dedup (rows : List PropagationFailure) (site sku : String)
    (payload : String × Int) (error : String) (attempts now : Nat)
    (hinv : ∀ s k, failureKeyCount rows s k ≤ 1) :
    (∀ s k, failureKeyCount (_record_failure rows site sku payload error attempts now) s k ≤ 1)
    ∧ (failureKeyCount rows site sku = 0 →
        _record_failure rows site sku payload error attempts now
          = rows ++ [⟨site, sku, payload, error, attempts, now, now⟩])
    ∧ (1 ≤ failureKeyCount rows site sku →
        (_record_failure rows site sku payload error attempts now).length = rows.length
        ∧ ∀ i : Nat, (_record_failure rows site sku payload error attempts now)[i]?
            = (rows[i]?).map (fun r =>
                if matchesFailureKey site sku r
                then { r with error := error, attempts := attempts, last_tried := now }
                else r)) := by
  unfold _record_failure
  by_cases hany : rows.any (matchesFailureKey site sku)
  · simp only [hany, if_true]
    have hpred : ∀ s k : String, ∀ r : PropagationFailure,
        matchesFailureKey s k (if matchesFailureKey site sku r
          then { r with error := error, attempts := attempts, last_tried := now }
          else r) = matchesFailureKey s k r := by
      intro s k r
      split <;> rfl
    refine ⟨?_, ?_, ?_⟩
    · intro s k
      unfold failureKeyCount at *
      rw [List.countP_map]
      have : (matchesFailureKey s k ∘ fun r => if matchesFailureKey site sku r
          then { r with error := error, attempts := attempts, last_tried := now }
          else r) = matchesFailureKey s k := by
        funext r
        exact hpred s k r
      rw [this]
      exact hinv s k
    · intro h0
      unfold failureKeyCount at h0
      rw [List.countP_eq_zero] at h0
      obtain ⟨a, ha, hpa⟩ := List.any_eq_true.mp hany
      exact absurd hpa (h0 a ha)
    · intro _
      exact ⟨List.length_map _ _, fun i => List.getElem?_map _ rows i⟩
  · have hany2 : rows.any (matchesFailureKey site sku) = false := eq_false_of_ne_true hany
    have h0 : failureKeyCount rows site sku = 0 := by
      unfold failureKeyCount
      rw [List.countP_eq_zero]
      exact fun a ha hpa => (List.any_eq_false.mp hany2) a ha hpa
    simp only [hany2, Bool.false_eq_true, if_false]
    refine ⟨?_, by intro h; trivial, ?_⟩
    · intro s k
      unfold failureKeyCount at *
      rw [List.countP_append, List.countP_singleton]
      by_cases hm : matchesFailureKey s k ⟨site, sku, payload, error, attempts, now, now⟩
      · have hsk : s = site ∧ k = sku := by
          unfold matchesFailureKey at hm
          simp at hm
          exact ⟨hm.1.symm, hm.2.symm⟩
        rw [hsk.1, hsk.2, h0]
        simp only [Nat.zero_add]
        split <;> simp
      · simp only [hm, if_false]
        simpa using hinv s k
    · intro h1
      rw [h0] at h1
      exact absurd h1 (by decide)

/-- Witness for C5: recording a failure for a fresh pair on an empty
table appends exactly the one new row. -/
theorem record_failure_dedup_witness :
    ((∀ s k, failureKeyCount [] s k ≤ 1) ∧ failureKeyCount [] "s1" "A" = 0)
    ∧ _record_failure [] "s1" "A" ("A", 42) "err" 5 9
        = [⟨"s1", "A", ("A", 42), "err", 5, 9, 9⟩] :=
  ⟨⟨fun s k => by simp [failureKeyCount], by decide⟩,
   (record_failure_dedup [] "s1" "A" ("A", 42) "err" 5 9
     (fun s k => by simp [failureKeyCount])).2.1 (by decide)⟩

/- ═══ Retry-loop lemmas (propagation worker) ═══ -/

lemma retryLoop_step_ok (out : Nat → AttemptOutcome) (max_retries : Nat) (base : ℚ)
    (f a : Nat) (st : RetryState) (hoa : out a = .ok) :
    retryLoop out max_retries base (f + 1) a st = ⟨true, st.lastError, st.sleeps, a⟩ := by
  simp only [retryLoop, hoa]

lemma retryLoop_step_notok (out : Nat → AttemptOutcome) (max_retries : Nat) (base : ℚ)
    (f a : Nat) (st : RetryState) (hout : out a ≠ .ok) :
    retryLoop out max_retries base (f + 1) a st =
      retryLoop out max_retries base f (a + 1)
        (if a < max_retries
         then ⟨st.success, outcomeError (out a), st.sleeps ++ [base * 2 ^ (a - 1)], a⟩
         else ⟨st.success, outcomeError (out a), st.sleeps, a⟩) := by
  cases hoa : out a with
  | ok => exact absurd hoa hout
  | apiFail => simp only [retryLoop, hoa]
  | exn msg => simp only [retryLoop, hoa]

lemma sleeps_chunk (base : ℚ) (a n : Nat) (ha : 1 ≤ a) :
    (List.range (n + 1)).map (fun j => base * 2 ^ (a - 1 + j))
      = (base * 2 ^ (a - 1)) :: (List.range n).map (fun j => base * 2 ^ (a + j)) := by
  have h3 : ((fun j => base * 2 ^ (a - 1 + j)) ∘ Nat.succ)
      = (fun j : Nat => base * 2 ^ (a + j)) := by
    funext j
    have he : a - 1 + (j + 1) = a + j := by omega
    show base * 2 ^ (a - 1 + (j + 1)) = base * 2 ^ (a + j)
    rw [he]
  rw [List.range_succ_eq_map, List.map_cons, List.map_map, h3, Nat.add_zero]

/-- When every attempt in the window fails, the loop runs all of them,
sleeping after each attempt except the last, and ends unsuccessful with
the last attempt's error. -/
lemma retryLoop_all_fail (out : Nat → AttemptOutcome) (max_retries : Nat) (base : ℚ) :
    ∀ (f a : Nat) (st : RetryState),
      1 ≤ f → 1 ≤ a → a + f = max_retries + 1 →
      (∀ i, a ≤ i → i ≤ max_retries → out i ≠ .ok) →
      retryLoop out max_retries base f a st =
        ⟨st.success, outcomeError (out max_retries),
         st.sleeps ++ (List.range (f - 1)).map (fun j => base * 2 ^ (a - 1 + j)),
         max_retries⟩ := by
  intro f
  induction f with
  | zero => intro a st hf; exact absurd hf (by decide)
  | succ f ih =>
    intro a st _ ha hsum hfail
    have hale : a ≤ max_retries := by omega
    have hout : out a ≠ .ok := hfail a (le_refl a) hale
    rw [retryLoop_step_notok out max_retries base f a st hout]
    cases f with
    | zero =>
      have hnlt : ¬ a < max_retries := by omega
      have haeq : a = max_retries := by omega
      rw [if_neg hnlt]
      subst haeq
      simp [retryLoop]
    | succ f2 =>
      have hlt : a < max_retries := by omega
      rw [if_pos hlt]
      rw [ih (a + 1) ⟨st.success, outcomeError (out a), st.sleeps ++ [base * 2 ^ (a - 1)], a⟩
        (by omega) (by omega) (by omega) (fun i hi1 hi2 => hfail i (by omega) hi2)]
      simp only [Nat.add_sub_cancel, RetryState.mk.injEq]
      refine ⟨trivial, trivial, ?_, trivial⟩
      rw [sleeps_chunk base a f2 ha, List.append_assoc, List.singleton_append]

/-- When attempt k is the first success in the window, the loop runs
attempts a..k, sleeping after each failed attempt, then breaks. -/
lemma retryLoop_first_ok (out : Nat → AttemptOutcome) (max_retries : Nat) (base : ℚ) :
    ∀ (f a : Nat) (st : RetryState) (k : Nat),
      1 ≤ a → a + f = max_retries + 1 →
      a ≤ k → k ≤ max_retries → out k = .ok →
      (∀ i, a ≤ i → i < k → out i ≠ .ok) →
      retryLoop out max_retries base f a st =
        ⟨true, if k = a then st.lastError else outcomeError (out (k - 1)),
         st.sleeps ++ (List.range (k - a)).map (fun j => base * 2 ^ (a - 1 + j)), k⟩ := by
  intro f
  induction f with
  | zero => intro a st k ha hsum hak hkle hok hfail; omega
  | succ f ih =>
    intro a st k ha hsum hak hkle hok hfail
    by_cases hk : k = a
    · subst hk
      rw [retryLoop_step_ok out max_retries base f k st hok]
      simp [Nat.sub_self]
    · have halt : a < k := by omega
      have hout : out a ≠ .ok := hfail a (le_refl a) halt
      have hlt : a < max_retries := by omega
      rw [retryLoop_step_notok out max_retries base f a st hout, if_pos hlt]
      rw [ih (a + 1) ⟨st.success, outcomeError (out a), st.sleeps ++ [base * 2 ^ (a - 1)], a⟩ k
        (by omega) (by omega) (by omega) hkle hok (fun i hi1 hi2 => hfail i (by omega) hi2)]
      simp only [Nat.add_sub_cancel, RetryState.mk.injEq]
      refine ⟨trivial, ?_, ?_, trivial⟩
      · by_cases hk1 : k = a + 1
        · rw [if_pos hk1, if_neg hk]
          subst hk1
          simp [Nat.add_sub_cancel]
        · rw [if_neg hk1, if_neg hk]
      · have hka : k - a = (k - (a + 1)) + 1 := by omega
        rw [hka, sleeps_chunk base a (k - (a + 1)) ha, List.append_assoc,
            List.singleton_append]

/-- C6.  Per-site retry policy of `_handle_job`: at most `max_retries`
attempts; the i-th sleep (between attempts i and i+1) lasts
`base * 2^(i-1)` seconds with no sleep after the last attempt; a
failure is recorded exactly when every attempt failed, and then with
`attempts = max_retries`; a first success at attempt k stops the loop
at k attempts with no failure recorded; the defaults (5 attempts,
base 2 s) give delays 2, 4, 8, 16 s. -/
theorem handle_job_retry_policy (out : Nat → AttemptOutcome) (max_retries : Nat)
    (base : ℚ) (h1 : 1 ≤ max_retries) :
    ((handleJobSite out max_retries base).1.attemptsMade ≤ max_retries)
    ∧ ((handleJobSite out max_retries base).1.sleeps
        = (List.range ((handleJobSite out max_retries base).1.attemptsMade - 1)).map
            (fun j => base * 2 ^ j))
    ∧ ((handleJobSite out max_retries base).2.isSome
        ↔ ∀ i, 1 ≤ i → i ≤ max_retries → out i ≠ .ok)
    ∧ (∀ fr, (handleJobSite out max_retries base).2 = some fr →
        fr.attempts = max_retries
        ∧ (handleJobSite out max_retries base).1.attemptsMade = max_retries)
    ∧ (∀ k, 1 ≤ k → k ≤ max_retries → out k = .ok →
        (∀ i, 1 ≤ i → i < k → out i ≠ .ok) →
        (handleJobSite out max_retries base).1.attemptsMade = k
        ∧ (handleJobSite out max_retries base).2 = none)
    ∧ (max_retries = 5 → base = 2 → (∀ i, out i = .apiFail) →
        (handleJobSite out max_retries base).1.sleeps = [2, 4, 8, 16]
        ∧ (handleJobSite out max_retries base).2
            = some ⟨5, "WC API returned non-success"⟩) := by
  have hexpnorm : (fun j : Nat => base * 2 ^ (1 - 1 + j)) = fun j : Nat => base * 2 ^ j := by
    funext j
    exact congrArg (fun e => base * 2 ^ e) (by omega)
  have hdefault : max_retries = 5 → base = 2 → (∀ i, out i = .apiFail) →
      (handleJobSite out max_retries base).1.sleeps = [2, 4, 8, 16]
      ∧ (handleJobSite out max_retries base).2
          = some ⟨5, "WC API returned non-success"⟩ := by
    intro h5 hb hout
    have hfun : out = fun _ => AttemptOutcome.apiFail := funext hout
    subst h5
    subst hb
    subst hfun
    have hrun := retryLoop_all_fail (fun _ => AttemptOutcome.apiFail) 5 2 5 1
      ⟨false, "", [], 0⟩ (by norm_num) (le_refl 1) (by norm_num)
      (fun i _ _ => by intro hc; simp at hc)
    have hsites : runSiteAttempts (fun _ => AttemptOutcome.apiFail) 5 2
        = ⟨false, "WC API returned non-success", [2, 4, 8, 16], 5⟩ := by
      unfold runSiteAttempts
      rw [hrun, RetryState.mk.injEq]
      refine ⟨rfl, rfl, ?_, rfl⟩
      rw [List.nil_append, show List.range (5 - 1) = [0, 1, 2, 3] from by decide]
      simp only [List.map_cons, List.map_nil]
      norm_num
    constructor
    · show (handleJobSite (fun _ => AttemptOutcome.apiFail) 5 2).1.sleeps = [2, 4, 8, 16]
      unfold handleJobSite
      rw [hsites]
    · unfold handleJobSite
      rw [hsites]
      rfl
  by_cases hall : ∀ i, 1 ≤ i → i ≤ max_retries → out i ≠ AttemptOutcome.ok
  · have hrun : runSiteAttempts out max_retries base
        = ⟨false, outcomeError (out max_retries),
           (List.range (max_retries - 1)).map (fun j => base * 2 ^ j), max_retries⟩ := by
      unfold runSiteAttempts
      rw [retryLoop_all_fail out max_retries base max_retries 1 ⟨false, "", [], 0⟩
        h1 (le_refl 1) (by omega) (fun i hi hle => hall i hi hle)]
      rw [hexpnorm]
      simp
    refine ⟨?_, ?_, ?_, ?_, ?_, hdefault⟩
    · simp [handleJobSite, hrun]
    · simp [handleJobSite, hrun]
    · constructor
      · intro _
        exact hall
      · intro _
        simp [handleJobSite, hrun]
    · intro fr hfr
      simp [handleJobSite, hrun] at hfr
      simp [handleJobSite, hrun, ← hfr]
    · intro k hk1 hk2 hok _
      exact absurd hok (hall k hk1 hk2)
  · push_neg at hall
    obtain ⟨i0, hi1, hi2, hi3⟩ := hall
    have hexists : ∃ i, 1 ≤ i ∧ i ≤ max_retries ∧ out i = AttemptOutcome.ok :=
      ⟨i0, hi1, hi2, hi3⟩
    have hP := Nat.find_spec hexists
    have hfail0 : ∀ i, 1 ≤ i → i < Nat.find hexists → out i ≠ AttemptOutcome.ok := by
      intro i h1i hik hoki
      exact Nat.find_min hexists hik ⟨h1i, by omega, hoki⟩
    have hrun : runSiteAttempts out max_retries base
        = ⟨true, if Nat.find hexists = 1 then "" else outcomeError (out (Nat.find hexists - 1)),
           (List.range (Nat.find hexists - 1)).map (fun j => base * 2 ^ j),
           Nat.find hexists⟩ := by
      unfold runSiteAttempts
      rw [retryLoop_first_ok out max_retries base max_retries 1 ⟨false, "", [], 0⟩
        (Nat.find hexists) (le_refl 1) (by omega) hP.1 hP.2.1 hP.2.2
        (fun i hi1 hi2 => hfail0 i hi1 hi2)]
      rw [hexpnorm]
      simp [Nat.sub_zero]
    refine ⟨?_, ?_, ?_, ?_, ?_, hdefault⟩
    · simp only [handleJobSite, hrun]
      exact hP.2.1
    · simp [handleJobSite, hrun]
    · constructor
      · intro hsome
        simp [handleJobSite, hrun] at hsome
      · intro hret
        exact absurd hP.2.2 (hret (Nat.find hexists) hP.1 hP.2.1)
    · intro fr hfr
      simp [handleJobSite, hrun] at hfr
    · intro k hk1 hk2 hok hpre
      have hle1 : Nat.find hexists ≤ k := Nat.find_min' hexists ⟨hk1, hk2, hok⟩
      have hle2 : k ≤ Nat.find hexists := by
        by_contra hc
        exact hpre (Nat.find hexists) hP.1 (by omega) hP.2.2
      have hkeq : k = Nat.find hexists := le_antisymm hle2 hle1
      subst hkeq
      simp [handleJobSite, hrun]

/-- Witness for C6 at the defaults with an always-failing storefront. -/
theorem handle_job_retry_policy_witness :
    ((1 : Nat) ≤ 5)
    ∧ (handleJobSite (fun _ => AttemptOutcome.apiFail) 5 2).1.sleeps = [2, 4, 8, 16]
    ∧ (handleJobSite (fun _ => AttemptOutcome.apiFail) 5 2).2
        = some ⟨5, "WC API returned non-success"⟩ :=
  ⟨by decide,
   ((handle_job_retry_policy (fun _ => AttemptOutcome.apiFail) 5 2 (by decide)).2.2.2.2.2
     rfl rfl (fun i => rfl)).1,
   ((handle_job_retry_policy (fun _ => AttemptOutcome.apiFail) 5 2 (by decide)).2.2.2.2.2
     rfl rfl (fun i => rfl)).2⟩

/- ═══ Mapping-refresher lemmas ═══ -/

lemma upsert_product_maps (db : DB) (sku name : String) :
    (_upsert_product db sku name).maps = db.maps := by
  unfold _upsert_product
  split <;> rw [stockStep_seq_maps]

lemma upsert_mapping_sku_source (db : DB) (site sku : String) (pid : Int)
    (vid : Option Int) (now : Nat) :
    ∀ m ∈ (_upsert_mapping db site sku pid vid now).maps,
      (∃ r ∈ db.maps, m.sku = r.sku) ∨ m.sku = sku := by
  unfold _upsert_mapping
  split
  · intro m hm
    rw [List.mem_map] at hm
    obtain ⟨r, hr, hfr⟩ := hm
    refine Or.inl ⟨r, hr, ?_⟩
    rw [← hfr]
    split <;> rfl
  · intro m hm
    rw [List.mem_append] at hm
    rcases hm with hm | hm
    · exact Or.inl ⟨m, hm, rfl⟩
    · rw [List.mem_singleton] at hm
      subst hm
      exact Or.inr rfl

lemma upsert_mapping_mem (db : DB) (site sku : String) (pid : Int)
    (vid : Option Int) (now : Nat) :
    ∃ m ∈ (_upsert_mapping db site sku pid vid now).maps,
      m.site_id = site ∧ m.sku = sku := by
  unfold _upsert_mapping
  cases hlm : lookupMap db site sku with
  | some r =>
    have hr : r ∈ db.maps := List.mem_of_find?_eq_some hlm
    have hkey : (r.site_id == site && r.sku == sku) = true := by
      have := List.find?_some hlm
      simpa using this
    simp only [Bool.and_eq_true, beq_iff_eq] at hkey
    refine ⟨(if r.site_id == site && r.sku == sku
      then { r with product_id := pid, variation_id := vid, refreshed_at := now }
      else r), ?_, ?_⟩
    · exact List.mem_map_of_mem _ hr
    · have hcond : (r.site_id == site && r.sku == sku) = true := by
        simp [hkey.1, hkey.2]
      rw [if_pos hcond]
      exact ⟨hkey.1, hkey.2⟩
  | none =>
    exact ⟨⟨site, sku, pid, vid, now⟩, by simp, rfl, rfl⟩

lemma processVariation_fold_sku (site : String) (pid : Int) (name : String) (now : Nat) :
    ∀ (vars : List RemoteVariation) (acc : DB × Nat),
      ∀ m ∈ (vars.foldl (processVariation site pid name now) acc).1.maps,
        (∃ r ∈ acc.1.maps, m.sku = r.sku) ∨ ∃ v ∈ vars, m.sku = pyStrip v.sku := by
  intro vars
  induction vars with
  | nil => exact fun acc m hm => Or.inl ⟨m, hm, rfl⟩
  | cons v vs ih =>
    intro acc m hm
    rw [List.foldl_cons] at hm
    rcases ih (processVariation site pid name now acc v) m hm with h | h
    · obtain ⟨r, hr, hmr⟩ := h
      unfold processVariation at hr
      by_cases hb : (pyStrip v.sku == "") = true
      · simp only [hb, if_true] at hr
        exact Or.inl ⟨r, hr, hmr⟩
      · simp only [hb, Bool.false_eq_true, if_false] at hr
        rcases upsert_mapping_sku_source _ site (pyStrip v.sku) pid (some v.id) now r hr
          with ⟨r2, hr2, hrr2⟩ | hsku
        · rw [upsert_product_maps] at hr2
          exact Or.inl ⟨r2, hr2, hmr.trans hrr2⟩
        · exact Or.inr ⟨v, List.mem_cons_self v vs, hmr.trans hsku⟩
    · obtain ⟨v2, hv2, hsku⟩ := h
      exact Or.inr ⟨v2, List.mem_cons_of_mem v hv2, hsku⟩

/- ═══ C7 theorems ═══ -/

/-- C7 counterexample.  A remote SKU " A " (with edge whitespace) is
stored as "A": `refresh_site_mappings` reads SKUs through
`.strip()` (mapping.py lines 94 and 106), so whitespace is NOT
preserved verbatim. -/
theorem refresh_strips_sku_whitespace :
    (refresh_site_mappings emptyDB "s1" [remoteSpacedSku] 0).1.maps
        = [⟨"s1", "A", 1, none, 0⟩]
    ∧ (" A " : String) ≠ "A" := by
  constructor
  · rfl
  · decide

/-- C7 amended.  The refresher stores each remote SKU after Python
`str.strip()`: every mapping row added by a refresh over one record
carries a stripped remote SKU, records whose SKU is blank after
stripping are skipped, non-blank ones are upserted under the stripped
SKU, and stripping only removes edge whitespace — the stored character
sequence is a contiguous infix of the remote one, so case and interior
characters (and duplicates) are preserved. -/
theorem refresh_sku_strip (db : DB) (site : String) (p : RemoteProduct) (now : Nat) :
    (∀ m ∈ (refresh_site_mappings db site [p] now).1.maps,
        (∃ r ∈ db.maps, m.sku = r.sku)
        ∨ m.sku = pyStrip p.sku
        ∨ ∃ v ∈ p.variations, m.sku = pyStrip v.sku)
    ∧ (p.ptype ≠ "variable" → pyStrip p.sku = "" →
        refresh_site_mappings db site [p] now = (db, 0))
    ∧ (p.ptype ≠ "variable" → pyStrip p.sku ≠ "" →
        ∃ m ∈ (refresh_site_mappings db site [p] now).1.maps,
          m.site_id = site ∧ m.sku = pyStrip p.sku)
    ∧ (∀ s : String, (pyStrip s).toList <:+: s.toList) := by
  have hsingle : refresh_site_mappings db site [p] now
      = processProduct site now (db, 0) p := by
    unfold refresh_site_mappings
    rw [List.foldl_cons, List.foldl_nil]
  refine ⟨?_, ?_, ?_, ?_⟩
  · intro m hm
    rw [hsingle] at hm
    unfold processProduct at hm
    by_cases hv : (p.ptype == "variable") = true
    · simp only [hv, if_true] at hm
      rcases processVariation_fold_sku site p.id p.name now p.variations (db, 0) m hm
        with h | h
      · exact Or.inl h
      · exact Or.inr (Or.inr h)
    · simp only [hv, Bool.false_eq_true, if_false] at hm
      by_cases hb : (pyStrip p.sku == "") = true
      · simp only [hb, if_true] at hm
        exact Or.inl ⟨m, hm, rfl⟩
      · simp only [hb, Bool.false_eq_true, if_false] at hm
        rcases upsert_mapping_sku_source _ site (pyStrip p.sku) p.id none now m hm
          with ⟨r, hr, hmr⟩ | hsku
        · rw [upsert_product_maps] at hr
          exact Or.inl ⟨r, hr, hmr⟩
        · exact Or.inr (Or.inl hsku)
  · intro hpt hblank
    rw [hsingle]
    unfold processProduct
    have hv : (p.ptype == "variable") = false := by
      simpa using hpt
    have hb : (pyStrip p.sku == "") = true := by
      simpa using hblank
    simp only [hv, Bool.false_eq_true, if_false, hb, if_true]
  · intro hpt hnb
    rw [hsingle]
    unfold processProduct
    have hv : (p.ptype == "variable") = false := by
      simpa using hpt
    have hb : (pyStrip p.sku == "") = false := by
      simpa using hnb
    simp only [hv, Bool.false_eq_true, if_false, hb]
    exact upsert_mapping_mem _ site (pyStrip p.sku) p.id none now
  · intro s
    have h1 : (s.toList.dropWhile isPySpace) <:+ s.toList := List.dropWhile_suffix _
    have h2 : ((s.toList.dropWhile isPySpace).reverse.dropWhile isPySpace).reverse
        <+: (s.toList.dropWhile isPySpace) := by
      refine List.reverse_suffix.mp ?_
      rw [List.reverse_reverse]
      exact List.dropWhile_suffix _
    exact (h2.isInfix).trans (h1.isInfix)

/-- Witness for C7 amended at the whitespace-SKU record: the record is
simple and non-blank, and the mapping stored for it carries the
stripped SKU. -/
theorem refresh_sku_strip_witness :
    (remoteSpacedSku.ptype ≠ "variable" ∧ pyStrip remoteSpacedSku.sku ≠ "")
    ∧ ∃ m ∈ (refresh_site_mappings emptyDB "s1" [remoteSpacedSku] 0).1.maps,
        m.site_id = "s1" ∧ m.sku = pyStrip remoteSpacedSku.sku :=
  ⟨⟨by decide, by decide⟩,
   (refresh_sku_strip emptyDB "s1" remoteSpacedSku 0).2.2.1 (by decide) (by decide)⟩

end AirtableHS
